import Mathlib

/-!
Verification development for the CVD monitor (`get_cvd_optimized_v3.py`).

The program ingests trade events per instrument over websockets, maintains a
running cumulative volume delta (CVD), a per-period volume and a trade count,
mirrors them into a shared in-process store (`data_store`), and periodically
persists them as CSV rows in two layouts.  This file embeds the data model and
the operations of that program shallowly:

* numeric values are modelled as `ℚ` (the program's float arithmetic, with the
  decimal trade quantities it actually receives, is exact decimal arithmetic);
* Python `float(s)` on plain decimal notation is `parseFloatChars`;
* Python `str`/`csv.writer` rendering of a decimally-representable value is
  `pyFloatStr` / `pyNatStr` (csv cells here never need quoting: no cell the
  program writes contains a comma, quote or newline);
* a CSV file on disk is its list of rows (`List String`, one string per line,
  line terminators stripped, as `str.splitlines` produces); its byte size is
  derived from the rows (each row is terminated by CRLF, as `csv.writer`
  writes);
* the monitor object `SymbolCvdMonitor` is the structure `Monitor`; its
  `data_store[self.shared_key]` dict entry is the `Entry` it carries
  (each monitor reads and writes only its own key of the shared store).
-/

namespace CvdV3

/-! ## Characters and digit strings -/

/-- The decimal digit character for `d` (`'0'`–`'9'` for `d < 10`). -/
def digitChar (d : Nat) : Char := Char.ofNat (48 + d)

/-- Numeric value of a decimal digit character, `none` for non-digits. -/
def charToDigit (c : Char) : Option Nat :=
  if 48 ≤ c.toNat ∧ c.toNat ≤ 57 then some (c.toNat - 48) else none

/-- Accumulating parse of a run of decimal digit characters; fails on the
first non-digit.  `parseDigitsAux acc cs` returns `acc * 10 ^ cs.length +
(value of cs)` when every character of `cs` is a digit. -/
def parseDigitsAux (acc : Nat) : List Char → Option Nat
  | [] => some acc
  | c :: cs =>
    match charToDigit c with
    | some d => parseDigitsAux (10 * acc + d) cs
    | none => none

/-- Decimal digit characters of `n`, most significant first (`"0"` for 0),
as Python's `str` renders a nonnegative integer. -/
def natToChars (n : Nat) : List Char :=
  match n with
  | 0 => ['0']
  | _ => ((Nat.digits 10 n).reverse.map digitChar)

/-- Splitting a character list at every occurrence of `c`, exactly as
Python's `str.split(sep)` with a one-character separator: `"" ↦ [""]`,
`"a,b" ↦ ["a","b"]`, `"," ↦ ["",""]`. -/
def splitOnCh (c : Char) : List Char → List (List Char)
  | [] => [[]]
  | x :: xs =>
    if x = c then [] :: splitOnCh c xs
    else
      match splitOnCh c xs with
      | [] => [[x]]
      | h :: t => (x :: h) :: t

/-- Joining cells with a separator character: the inverse of `splitOnCh`,
and the row format `csv.writer.writerow` produces for cells that need no
quoting. -/
def joinCh (c : Char) : List (List Char) → List Char
  | [] => []
  | [x] => x
  | x :: xs => x ++ c :: joinCh c xs

/-! ## Python `float(s)` on decimal notation

`float()` accepts an optional sign, then digits with at most one decimal
point and at least one digit in total; anything else raises `ValueError`
(which the program catches).  Exotic spellings (`1e3`, `inf`, underscores)
never occur in the files this program reads back, and are modelled as
parse failures. -/

/-- Unsigned decimal parse: `"12" ↦ 12`, `"1.5" ↦ 3/2`, `".5" ↦ 1/2`,
`"5." ↦ 5`, `"" ↦ none`, `"." ↦ none`, `"1.2.3" ↦ none`. -/
def parseUnsignedChars (cs : List Char) : Option ℚ :=
  match splitOnCh '.' cs with
  | [ip] =>
    if ip = [] then none
    else (parseDigitsAux 0 ip).map (fun n => (n : ℚ))
  | [ip, fp] =>
    if ip = [] ∧ fp = [] then none
    else
      match parseDigitsAux 0 ip, parseDigitsAux 0 fp with
      | some i, some f => some ((i : ℚ) + (f : ℚ) / (10 : ℚ) ^ fp.length)
      | _, _ => none
  | _ => none

/-- Model of Python `float(s)` for plain decimal notation. -/
def parseFloatChars (cs : List Char) : Option ℚ :=
  match cs with
  | [] => none
  | c :: rest =>
    if c = '-' then (parseUnsignedChars rest).map (fun q => -q)
    else if c = '+' then parseUnsignedChars rest
    else parseUnsignedChars (c :: rest)

/-- `float()` applied to a whole string cell. -/
def parseFloat (s : String) : Option ℚ := parseFloatChars s.toList

/-! ## Rendering numbers back to CSV cells -/

/-- The `e` decimal digits of `r < 10 ^ e`, most significant first, with
leading zeros. -/
def fracChars (r e : Nat) : List Char :=
  ((Nat.digits 10 r ++ List.replicate (e - (Nat.digits 10 r).length) 0).reverse.map digitChar)

/-- Decimal rendering of the value `m / 10 ^ e`: sign, integer digits and,
for `e > 0`, a point followed by `e` fraction digits. -/
def fmtDecimalChars (m : Int) (e : Nat) : List Char :=
  (if m < 0 then ['-'] else []) ++
    (if e = 0 then natToChars m.natAbs
     else natToChars (m.natAbs / 10 ^ e) ++ '.' :: fracChars (m.natAbs % 10 ^ e) e)

/-- Fuel-driven multiplicity count (structural recursion so that proofs
can evaluate it); `fuel ≥ n` always suffices. -/
def powCountAux : Nat → Nat → Nat → Nat
  | 0, _, _ => 0
  | fuel + 1, p, n =>
    if 1 < p ∧ 0 < n ∧ p ∣ n then powCountAux fuel p (n / p) + 1 else 0

/-- Multiplicity of the factor `p` in `n` (0 when `p ≤ 1` or `n = 0`). -/
def powCount (p n : Nat) : Nat := powCountAux n p n

/-- The canonical decimal exponent of `q`: when `q`'s reduced denominator is
`2 ^ a * 5 ^ b` (true of every value the program handles), `q` equals
`m / 10 ^ decExp q` for an integer `m`. -/
def decExp (q : ℚ) : Nat := max (powCount 2 q.den) (powCount 5 q.den)

/-- Model of Python `str` on the float `q` (the rendering `csv.writer` uses
for a cell): an exact decimal rendering of a decimally-representable value.
(CPython prints the shortest float repr; any exact decimal rendering parses
back to the same value, which is all the program relies on.) -/
def pyFloatStr (q : ℚ) : String :=
  String.mk (fmtDecimalChars (q.num * ((10 : Int) ^ decExp q / (q.den : Int))) (decExp q))

/-- Model of Python `str` on the int `n` (the `trade_count` cell). -/
def pyNatStr (n : Nat) : String := String.mk (natToChars n)

/-- The line `csv.writer.writerow(cells)` appends (terminator stripped). -/
def writeRowLine (cells : List String) : String :=
  String.mk (joinCh ',' (cells.map String.toList))

/-! ## The monitor (`SymbolCvdMonitor`) and its shared-store entry -/

/-- The dict `data_store[self.shared_key]` holding a monitor's published
snapshot (the `MetricsStore` entry for its instrument key). -/
structure Entry where
  cvd : ℚ
  last_price : Option ℚ
  period_volume : ℚ
  trade_count : Nat
deriving DecidableEq, Repr

/-- State of one `SymbolCvdMonitor` (lines 251–295): its accumulators, its
run/reconnect bookkeeping, whether a websocket is currently held open
(`self.ws` non-`None`), and the `data_store` entry it exclusively owns. -/
structure Monitor where
  cvd : ℚ
  period_volume : ℚ
  last_price : Option ℚ
  trade_count : Nat
  running : Bool
  ws_open : Bool
  reconnect_attempts : Nat
  stream_name : String
  entry : Entry
deriving DecidableEq, Repr

/-- `self.max_reconnect_attempts` (line 281). -/
def max_reconnect_attempts : Nat := 20

/-- `self.max_reconnect_delay` (line 282), seconds. -/
def max_reconnect_delay : Nat := 60

/-- `self.initial_reconnect_delay` (line 283), seconds. -/
def initial_reconnect_delay : Nat := 5

/-- `SymbolCvdMonitor.__init__` (lines 251–295) after the initial CVD has
been loaded: seeds `cvd`, zeroes the other accumulators, and publishes the
initial snapshot into `data_store[self.shared_key]`. -/
def mkMonitor (initial_cvd : ℚ) (stream : String) : Monitor :=
  { cvd := initial_cvd
    period_volume := 0
    last_price := none
    trade_count := 0
    running := true
    ws_open := false
    reconnect_attempts := 0
    stream_name := stream
    entry :=
      { cvd := initial_cvd
        last_price := none
        period_volume := 0
        trade_count := 0 } }

/-- An inbound aggTrade payload as the JSON pointers of `calculate_cvd` see
it: each field either absent (`none`, making `at_pointer` raise) or a raw
value (`q`/`p` are JSON strings fed to `float`, `m` a JSON bool). -/
structure TradeData where
  q : Option String
  m : Option Bool
  p : Option String
deriving DecidableEq, Repr

/-- The field extraction and conversion of `calculate_cvd` lines 334–336:
`float(data.at_pointer("/q"))`, `data.at_pointer("/m")`,
`float(data.at_pointer("/p"))`.  `none` when any pointer is missing or a
`float()` conversion raises — in the source, the raised exception reaches
the `except` of line 357 before any state was mutated. -/
def parseTrade (t : TradeData) : Option (ℚ × Bool × ℚ) :=
  match t.q.bind parseFloat, t.m, t.p.bind parseFloat with
  | some quantity, some is_buyer_maker, some price => some (quantity, is_buyer_maker, price)
  | _, _, _ => none

/-- `SymbolCvdMonitor.calculate_cvd` (lines 311–358).  On a well-formed
trade: `delta = q if not m else -q`; accumulates `cvd` and
`period_volume`, updates `last_price`, publishes `cvd`, `last_price`,
`period_volume` and `trade_count` into the store entry (line 348 publishes
`self.trade_count` *before* line 350 increments it), then increments
`trade_count`.  On a malformed trade the exception is caught and the state
is untouched. -/
def calculate_cvd (self : Monitor) (t : TradeData) : Monitor :=
  match parseTrade t with
  | some (quantity, is_buyer_maker, price) =>
    let delta := if is_buyer_maker then -quantity else quantity
    let cvd := self.cvd + delta
    let period_volume := self.period_volume + quantity
    { self with
      cvd := cvd
      period_volume := period_volume
      last_price := some price
      entry :=
        { cvd := cvd
          last_price := some price
          period_volume := period_volume
          trade_count := self.trade_count }
      trade_count := self.trade_count + 1 }
  | none => self

/-- A decoded websocket message as `process_message` (lines 360–383)
dispatches it: a raw envelope with an `e` tag, a framed envelope with
`stream` and `data.e` tags, or any other JSON shape. -/
inductive WsMessage where
  | rawTrade (eventType : String) (t : TradeData)
  | framed (stream : String) (eventType : String) (t : TradeData)
  | other
deriving DecidableEq, Repr

/-- `SymbolCvdMonitor.process_message` (lines 360–383): only aggTrade
events (raw, or framed with the monitor's own stream name) reach
`calculate_cvd`; every other shape is ignored. -/
def process_message (self : Monitor) (msg : WsMessage) : Monitor :=
  match msg with
  | .rawTrade eventType t =>
    if eventType = "aggTrade" then calculate_cvd self t else self
  | .framed stream eventType t =>
    if stream = self.stream_name ∧ eventType = "aggTrade" then calculate_cvd self t else self
  | .other => self

/-- One frame of the `async for msg in ws` loop (lines 416–427): text and
binary frames are processed and reading continues; error and closed frames
break out of the read loop. -/
inductive WsFrame where
  | text (msg : WsMessage)
  | binary (msg : WsMessage)
  | error
  | closed
deriving DecidableEq, Repr

/-- Dispatch of one frame: the resulting state and whether the read loop
keeps going. -/
def handle_frame (self : Monitor) (f : WsFrame) : Monitor × Bool :=
  match f with
  | .text msg => (process_message self msg, true)
  | .binary msg => (process_message self msg, true)
  | .error => (self, false)
  | .closed => (self, false)

/-- The `async for` read loop over a (finite prefix of a) frame sequence. -/
def read_frames (self : Monitor) : List WsFrame → Monitor
  | [] => self
  | f :: fs =>
    let r := handle_frame self f
    if r.2 then read_frames r.1 fs else r.1

/-- `self.reconnect_attempts = 0` at line 414, performed the moment the
websocket connect succeeds, before any message is read. -/
def on_connect_success (self : Monitor) : Monitor :=
  { self with ws_open := true, reconnect_attempts := 0 }

/-- The `finally` block (lines 431–434): drop the websocket and, if still
running, count one more reconnect attempt. -/
def on_session_end (self : Monitor) : Monitor :=
  { self with
    ws_open := false
    reconnect_attempts :=
      if self.running then self.reconnect_attempts + 1 else self.reconnect_attempts }

/-- The backoff delay of line 395:
`min(initial_reconnect_delay * 2 ** attempts, max_reconnect_delay)`. -/
def backoff_delay (attempts : Nat) : Nat :=
  min (initial_reconnect_delay * 2 ^ attempts) max_reconnect_delay

/-- Result of one pass of the `while self.running` loop of
`connect_and_monitor`: whether the loop terminated on this pass, the
backoff delay slept if any, and the state afterwards. -/
structure IterResult where
  halted : Bool
  waited : Option Nat
  state : Monitor
deriving DecidableEq, Repr

/-- One pass of the `while self.running` loop (lines 389–434), driven by
the environment: whether the `ws_connect` handshake succeeds, and the
frames delivered before the connection ends. -/
def connect_iteration (self : Monitor) (handshake_ok : Bool) (frames : List WsFrame) :
    IterResult :=
  if self.running = false then ⟨true, none, self⟩
  else if max_reconnect_attempts ≤ self.reconnect_attempts then ⟨true, none, self⟩
  else
    let waited :=
      if 0 < self.reconnect_attempts then some (backoff_delay self.reconnect_attempts)
      else none
    if handshake_ok then
      ⟨false, waited, on_session_end (read_frames (on_connect_success self) frames)⟩
    else
      ⟨false, waited, on_session_end self⟩

/-- `connect_and_monitor` run over a finite schedule of environment
behaviours, one per loop pass; stops as soon as a pass halts the loop. -/
def connect_and_monitor (self : Monitor) : List (Bool × List WsFrame) → Monitor
  | [] => self
  | (ok, frames) :: rest =>
    let r := connect_iteration self ok frames
    if r.halted then r.state else connect_and_monitor r.state rest

/-- `SymbolCvdMonitor.stop` (lines 438–441): sets `self.running = False`
and nothing else. -/
def stop (self : Monitor) : Monitor := { self with running := false }

/-- `SymbolCvdMonitor.reset_period_volume` (lines 443–453): zeroes the
period volume in the monitor and in its store entry, touching nothing
else. -/
def reset_period_volume (self : Monitor) : Monitor :=
  { self with
    period_volume := 0
    entry := { self.entry with period_volume := 0 } }

/-! ## The rehydration loader (`load_last_cvd_from_separate_csv`) -/

/-- On-disk byte size of a CSV file given as its rows: each row's
characters plus its CRLF terminator (rows written by `csv.writer` are
ASCII and CRLF-terminated). -/
def fileSize (lines : List String) : Nat :=
  (lines.map (fun l => l.length + 2)).sum

/-- Characters of the file's final line: lines 222–230 read the trailing
chunk (last 4096 bytes), split it into lines and keep the last one — which
is exactly the file's last row whenever that row fits in the trailing
chunk, as every row this program writes does; `""` when the file has no
lines. -/
def lastLineChars (lines : List String) : List Char :=
  ((lines.getLast?).getD "").toList

/-- `load_last_cvd_from_separate_csv(csv_file_path, max_age_days)`
(lines 176–245).  The file argument is `none` when the path does not exist;
`ageDays` is `(now - file_mtime).days`.  Order of the checks follows the
source: existence, age, zero size, the small-file row count, then last-line
parsing; any parse failure (or a short last row) falls through to the
`return 0.0`. -/
def load_last_cvd_from_separate_csv (file : Option (List String)) (ageDays maxAgeDays : Nat) :
    ℚ :=
  match file with
  | none => 0
  | some lines =>
    if maxAgeDays < ageDays then 0
    else if fileSize lines = 0 then 0
    else if fileSize lines < 100 ∧ lines.length ≤ 1 then 0
    else
      let lastLine := lastLineChars lines
      if lastLine = [] then 0
      else
        let parts := splitOnCh ',' lastLine
        if 3 ≤ parts.length then
          match parseFloatChars (parts.getD 2 []) with
          | some v => v
          | none => 0
        else 0

/-! ## The persistence cycle (`save_cvd_data_both_modes`) -/

/-- The skip test of line 482: an instrument that has never seen a trade —
`(last_price is None or last_price == 0) and cvd == 0` — gets no row. -/
def save_skip (e : Entry) : Prop :=
  (e.last_price = none ∨ e.last_price = some 0) ∧ e.cvd = 0

instance (e : Entry) : Decidable (save_skip e) := by
  unfold save_skip; infer_instance

/-- The price written for a snapshot: `0.0` substituted when `last_price`
is `None` (lines 485–486). -/
def row_price (e : Entry) : ℚ := e.last_price.getD 0

/-- The combined-log row of line 489:
`[timestamp, key, last_price, cvd, period_volume, trade_count]`,
each cell as `csv.writer` renders it. -/
def unified_row_cells (ts key : String) (e : Entry) : List String :=
  [ts, key, pyFloatStr (row_price e), pyFloatStr e.cvd, pyFloatStr e.period_volume,
    pyNatStr e.trade_count]

/-- The per-instrument row of line 493:
`[timestamp, last_price, cvd, period_volume, trade_count]`. -/
def separate_row_cells (ts : String) (e : Entry) : List String :=
  [ts, pyFloatStr (row_price e), pyFloatStr e.cvd, pyFloatStr e.period_volume,
    pyNatStr e.trade_count]

/-- The single collection pass of lines 472–495: one read of each
monitor's snapshot produces, for every non-skipped instrument, its
combined-log row and its per-instrument row (keyed by instrument, as the
`{data_dir}/{key}.csv` path is).  Every monitor's store entry is present —
`__init__` put it there — so the `key not in data_store` guard never
fires. -/
def save_rows (ts : String) : List (String × Monitor) →
    List (List String) × List (String × List String)
  | [] => ([], [])
  | (key, mon) :: rest =>
    let e := mon.entry
    if save_skip e then save_rows ts rest
    else
      let r := save_rows ts rest
      (unified_row_cells ts key e :: r.1, (key, separate_row_cells ts e) :: r.2)

/-- The header row of a per-instrument file (line 513). -/
def separate_header : List String :=
  ["timestamp", "price", "cvd", "period_volume", "trade_count"]

/-- Appending one row to a CSV file (lines 509–514): when the file does
not yet exist it is created and the header row is written first. -/
def append_row_to_file (file : Option (List String)) (header cells : List String) :
    List String :=
  match file with
  | none => [writeRowLine header, writeRowLine cells]
  | some lines => lines ++ [writeRowLine cells]

/-- The effect of one persistence cycle on one instrument's dedicated log
file: nothing when the instrument is skipped, otherwise the append of
lines 507–514. -/
def save_separate_file (file : Option (List String)) (ts : String) (e : Entry) :
    Option (List String) :=
  if save_skip e then file
  else some (append_row_to_file file separate_header (separate_row_cells ts e))

/-- Result of a whole `save_cvd_data_both_modes` call: the combined-log
rows, the per-instrument rows whose file writes succeeded, the
per-instrument paths whose writes raised (caught and logged at
lines 515–516), and the monitors after the final reset loop. -/
structure SaveResult where
  unified_rows : List (List String)
  written_files : List (String × List String)
  failed_files : List String
  monitors : List (String × Monitor)

/-- `save_cvd_data_both_modes(data_store, monitors, data_dir)`
(lines 456–522).  `writeFails key` says whether the append to that
instrument's dedicated file raises (disk error); such an exception is
caught per file and the cycle continues.  After attempting all writes, the
loop of lines 519–520 resets every monitor's period volume
unconditionally. -/
def save_cvd_data_both_modes (ts : String) (writeFails : String → Bool)
    (monitors : List (String × Monitor)) : SaveResult :=
  let rows := save_rows ts monitors
  { unified_rows := rows.1
    written_files := rows.2.filter (fun p => !writeFails p.1)
    failed_files := (rows.2.filter (fun p => writeFails p.1)).map (fun p => p.1)
    monitors := monitors.map (fun p => (p.1, reset_period_volume p.2)) }

/-! ## Derived notions used in the statements -/

/-- Replaying a stream of decoded trades into one aggregator. -/
def replay (m : Monitor) (events : List TradeData) : Monitor :=
  events.foldl calculate_cvd m

/-- The signed contribution of one parsed trade to the CVD: positive when
the aggressor is the buyer (`is_buyer_maker` false), negative otherwise. -/
def signedQty (x : ℚ × Bool × ℚ) : ℚ := if x.2.1 then -x.1 else x.1

/-- The store entry mirrors the monitor's own `cvd`, `period_volume` and
`last_price`. -/
def mirrors (m : Monitor) : Prop :=
  m.entry.cvd = m.cvd ∧ m.entry.period_volume = m.period_volume ∧
    m.entry.last_price = m.last_price

instance (m : Monitor) : Decidable (mirrors m) := by
  unfold mirrors; infer_instance

/-- A character is a decimal digit. -/
def isDigitCh (c : Char) : Prop := 48 ≤ c.toNat ∧ c.toNat ≤ 57

instance (c : Char) : Decidable (isDigitCh c) := by
  unfold isDigitCh; infer_instance

/-- A rational has a finite decimal representation exactly when its reduced
denominator divides a power of ten; `decExp` picks a sufficient exponent.
This holds for every value the program handles: every parsed trade field
is a finite decimal, every IEEE double is a dyadic rational, and the
accumulators are sums of such values. -/
def decimalRepresentable (q : ℚ) : Prop := q.den ∣ 10 ^ decExp q

instance (q : ℚ) : Decidable (decimalRepresentable q) := by
  unfold decimalRepresentable; infer_instance

/-- Parse of the file's final row (lines 232–241 of the loader): `none`
when the last line is empty, has fewer than three comma-separated columns,
or its third column fails `float` parsing. -/
def lastRowParse (lines : List String) : Option ℚ :=
  if lastLineChars lines = [] then none
  else
    if 3 ≤ (splitOnCh ',' (lastLineChars lines)).length then
      parseFloatChars ((splitOnCh ',' (lastLineChars lines)).getD 2 [])
    else none

/-- Modelled from the spec's words, as amended by the counterexample below:
the loader returns 0.0 exactly when a cold-start condition holds — file
absent; file too old; file empty; file smaller than 100 bytes with at
most one row; or the final row fails to parse — and otherwise returns the
third comma-separated column of the last row parsed as a float. -/
def loadSeedCvd_spec (file : Option (List String)) (ageDays maxAgeDays : Nat) : ℚ :=
  match file with
  | none => 0
  | some lines =>
    if maxAgeDays < ageDays ∨ fileSize lines = 0 ∨
        (fileSize lines < 100 ∧ lines.length ≤ 1) then 0
    else (lastRowParse lines).getD 0

/-! ## Concrete data used by witnesses and counterexamples -/

/-- The spec's two-trade scenario: (qty=1, aggressor=buy) then (qty=0.5,
aggressor=sell) — aggressor-buy means the buyer-is-maker flag `m` is
false. -/
def scenarioEvents : List TradeData :=
  [{ q := some "1", m := some false, p := some "100.0" },
   { q := some "0.5", m := some true, p := some "99.5" }]

/-- One half written as an explicit reduced fraction (proof-side
evaluation cannot unfold `1/2`, which hides behind `Rat.inv`). -/
def halfQ : ℚ := ⟨1, 2, by decide, by decide⟩

/-- A monitor mid-run: seeded cvd 0.5, one trade published, a second
counted. -/
def mExample : Monitor :=
  { mkMonitor halfQ "btcusdt@aggTrade" with
    period_volume := 3
    last_price := some 100
    trade_count := 2
    entry := { cvd := halfQ, last_price := some 100, period_volume := 3, trade_count := 1 } }

/-- A monitor currently holding an open websocket. -/
def mOpenWs : Monitor := { mExample with ws_open := true }

/-- A trade whose quantity field is non-numeric. -/
def badTrade : TradeData := { q := some "abc", m := some false, p := some "1.0" }

/-- A well-formed trade. -/
def goodTrade : TradeData := { q := some "1", m := some false, p := some "100.0" }

/-- Entry used in the C6 witness: cvd one half, a last price present. -/
def eExample : Entry :=
  { cvd := halfQ, last_price := some 100, period_volume := 3, trade_count := 7 }

/-- A fresh single-row CSV file of more than 100 bytes whose only row is a
parseable data row (first column padded with 95 zeros so the file crosses
the loader's 100-byte small-file threshold). -/
def longRow : List String :=
  [writeRowLine [String.mk (List.replicate 95 '0'), "1", "2.5"]]

/-! ## Digit and parsing lemmas -/

theorem charToDigit_digitChar {d : Nat} (h : d < 10) :
    charToDigit (digitChar d) = some d := by
  interval_cases d <;> decide

theorem isDigitCh_digitChar {d : Nat} (h : d < 10) : isDigitCh (digitChar d) := by
  interval_cases d <;> decide

theorem isDigitCh_ne_dot {c : Char} (h : isDigitCh c) : c ≠ '.' := by
  rintro rfl; exact absurd h (by decide)

theorem isDigitCh_ne_comma {c : Char} (h : isDigitCh c) : c ≠ ',' := by
  rintro rfl; exact absurd h (by decide)

theorem isDigitCh_ne_minus {c : Char} (h : isDigitCh c) : c ≠ '-' := by
  rintro rfl; exact absurd h (by decide)

theorem isDigitCh_ne_plus {c : Char} (h : isDigitCh c) : c ≠ '+' := by
  rintro rfl; exact absurd h (by decide)

theorem parseDigitsAux_map (ds : List Nat) (h : ∀ d ∈ ds, d < 10) :
    ∀ acc : Nat,
      parseDigitsAux acc (ds.map digitChar) =
        some (ds.foldl (fun a d => 10 * a + d) acc) := by
  induction ds with
  | nil => intro acc; rfl
  | cons d t ih =>
    intro acc
    have hd : d < 10 := h d (List.mem_cons_self d t)
    simp only [List.map_cons, parseDigitsAux, charToDigit_digitChar hd, List.foldl_cons]
    exact ih (fun x hx => h x (List.mem_cons_of_mem d hx)) (10 * acc + d)

theorem foldl_reverse_ofDigits (L : List Nat) :
    ∀ acc : Nat,
      L.reverse.foldl (fun a d => 10 * a + d) acc =
        acc * 10 ^ L.length + Nat.ofDigits 10 L := by
  induction L with
  | nil => intro acc; simp
  | cons d t ih =>
    intro acc
    simp only [List.reverse_cons, List.foldl_append, List.foldl_cons, List.foldl_nil, ih,
      Nat.ofDigits_cons, List.length_cons]
    ring

theorem parseDigitsAux_natToChars (n : Nat) : parseDigitsAux 0 (natToChars n) = some n := by
  match n with
  | 0 => decide
  | Nat.succ k =>
    show parseDigitsAux 0 (((Nat.digits 10 (k + 1)).reverse).map digitChar) = some (k + 1)
    rw [parseDigitsAux_map _ (fun d hd => Nat.digits_lt_base (by norm_num)
        (List.mem_reverse.mp hd)),
      foldl_reverse_ofDigits]
    simp only [zero_mul, zero_add, Nat.ofDigits_digits]

theorem natToChars_ne_nil (n : Nat) : natToChars n ≠ [] := by
  match n with
  | 0 => decide
  | Nat.succ k =>
    unfold natToChars
    simp only [ne_eq, List.map_eq_nil_iff, List.reverse_eq_nil_iff]
    exact Nat.digits_ne_nil_iff_ne_zero.mpr (Nat.succ_ne_zero k)

theorem isDigitCh_of_mem_natToChars {n : Nat} {c : Char} (h : c ∈ natToChars n) :
    isDigitCh c := by
  match n with
  | 0 =>
    simp only [natToChars, List.mem_singleton] at h
    subst h; decide
  | Nat.succ k =>
    unfold natToChars at h
    obtain ⟨d, hd, rfl⟩ := List.mem_map.mp h
    exact isDigitCh_digitChar
      (Nat.digits_lt_base (by norm_num) (List.mem_reverse.mp hd))

theorem digits_len_le_of_lt_pow {r e : Nat} (h : r < 10 ^ e) :
    (Nat.digits 10 r).length ≤ e := by
  by_contra hlt
  push_neg at hlt
  rcases Nat.eq_zero_or_pos r with h0 | hp
  · subst h0; simp at hlt
  · have h1 := Nat.base_pow_length_digits_le 10 r (by norm_num) (Nat.pos_iff_ne_zero.mp hp)
    have h2 : (10 : Nat) ^ (e + 1) ≤ 10 ^ (Nat.digits 10 r).length :=
      Nat.pow_le_pow_right (by norm_num) hlt
    have h3 : (10 : Nat) * 10 ^ e ≤ 10 * r := by
      calc (10 : Nat) * 10 ^ e = 10 ^ (e + 1) := by ring
      _ ≤ 10 ^ (Nat.digits 10 r).length := h2
      _ ≤ 10 * r := h1
    have := Nat.le_of_mul_le_mul_left h3 (by norm_num)
    omega

theorem ofDigits_replicate_zero (k : Nat) : Nat.ofDigits 10 (List.replicate k 0) = 0 := by
  induction k with
  | zero => rfl
  | succ n ih => simp [List.replicate_succ, Nat.ofDigits_cons, ih]

theorem fracChars_length {r e : Nat} (h : r < 10 ^ e) : (fracChars r e).length = e := by
  have hlen := digits_len_le_of_lt_pow h
  unfold fracChars
  simp only [List.length_map, List.length_reverse, List.length_append,
    List.length_replicate]
  omega

theorem parseDigitsAux_fracChars (r e : Nat) :
    parseDigitsAux 0 (fracChars r e) = some r := by
  unfold fracChars
  have hb : ∀ d ∈ (Nat.digits 10 r ++
      List.replicate (e - (Nat.digits 10 r).length) 0).reverse, d < 10 := by
    intro d hd
    rcases List.mem_append.mp (List.mem_reverse.mp hd) with h1 | h1
    · exact Nat.digits_lt_base (by norm_num) h1
    · have := List.eq_of_mem_replicate h1
      omega
  rw [parseDigitsAux_map _ hb, foldl_reverse_ofDigits]
  simp only [zero_mul, zero_add, Nat.ofDigits_append, Nat.ofDigits_digits,
    ofDigits_replicate_zero, mul_zero, add_zero]

theorem isDigitCh_of_mem_fracChars {r e : Nat} {c : Char} (h : c ∈ fracChars r e) :
    isDigitCh c := by
  unfold fracChars at h
  obtain ⟨d, hd, rfl⟩ := List.mem_map.mp h
  rcases List.mem_append.mp (List.mem_reverse.mp hd) with h1 | h1
  · exact isDigitCh_digitChar (Nat.digits_lt_base (by norm_num) h1)
  · have := List.eq_of_mem_replicate h1
    subst this; decide

/-! ## `splitOnCh` and `joinCh` -/

theorem splitOnCh_of_not_mem {c : Char} {l : List Char} (h : c ∉ l) :
    splitOnCh c l = [l] := by
  induction l with
  | nil => rfl
  | cons x xs ih =>
    have hx : ¬ x = c := fun hc => h (hc ▸ List.mem_cons_self x xs)
    have hxs : c ∉ xs := fun hc => h (List.mem_cons_of_mem x hc)
    simp only [splitOnCh, if_neg hx, ih hxs]

theorem splitOnCh_append {c : Char} {a b : List Char} (h : c ∉ a) :
    splitOnCh c (a ++ c :: b) = a :: splitOnCh c b := by
  induction a with
  | nil => simp [splitOnCh]
  | cons x xs ih =>
    have hx : ¬ x = c := fun hc => h (hc ▸ List.mem_cons_self x xs)
    have hxs : c ∉ xs := fun hc => h (List.mem_cons_of_mem x hc)
    simp only [List.cons_append, splitOnCh, if_neg hx, List.append_eq]
    rw [ih hxs]

theorem splitOnCh_joinCh {c : Char} :
    ∀ {cells : List (List Char)}, cells ≠ [] → (∀ l ∈ cells, c ∉ l) →
      splitOnCh c (joinCh c cells) = cells
  | [], hne, _ => absurd rfl hne
  | [x], _, h => by
    simp only [joinCh]
    exact splitOnCh_of_not_mem (h x (List.mem_singleton_self x))
  | x :: y :: t, _, h => by
    have hx : c ∉ x := h x (List.mem_cons_self x (y :: t))
    have ht : ∀ l ∈ y :: t, c ∉ l := fun l hl => h l (List.mem_cons_of_mem x hl)
    show splitOnCh c (x ++ c :: joinCh c (y :: t)) = x :: y :: t
    rw [splitOnCh_append hx, splitOnCh_joinCh (List.cons_ne_nil y t) ht]

theorem joinCh_two_ne_nil {c : Char} {x y : List Char} {t : List (List Char)} :
    joinCh c (x :: y :: t) ≠ [] := by
  show x ++ c :: joinCh c (y :: t) ≠ []
  cases x <;> simp

/-! ## Round trip: rendering a decimal value and parsing it back -/

theorem dot_not_mem_natToChars (n : Nat) : '.' ∉ natToChars n :=
  fun h => isDigitCh_ne_dot (isDigitCh_of_mem_natToChars h) rfl

theorem dot_not_mem_fracChars (r e : Nat) : '.' ∉ fracChars r e :=
  fun h => isDigitCh_ne_dot (isDigitCh_of_mem_fracChars h) rfl

theorem parseUnsignedChars_natToChars (n : Nat) :
    parseUnsignedChars (natToChars n) = some (n : ℚ) := by
  unfold parseUnsignedChars
  rw [splitOnCh_of_not_mem (dot_not_mem_natToChars n)]
  simp only [if_neg (natToChars_ne_nil n), parseDigitsAux_natToChars, Option.map_some]
  rfl

theorem parseUnsignedChars_point {i r e : Nat} (hr : r < 10 ^ e) :
    parseUnsignedChars (natToChars i ++ '.' :: fracChars r e) =
      some ((i : ℚ) + (r : ℚ) / (10 : ℚ) ^ e) := by
  unfold parseUnsignedChars
  rw [splitOnCh_append (dot_not_mem_natToChars i),
    splitOnCh_of_not_mem (dot_not_mem_fracChars r e)]
  have hne : ¬ (natToChars i = [] ∧ fracChars r e = []) :=
    fun hc => natToChars_ne_nil i hc.1
  simp only [if_neg hne, parseDigitsAux_natToChars, parseDigitsAux_fracChars,
    fracChars_length hr]

theorem parseFloatChars_cons_digit {c : Char} (rest : List Char) (hc : isDigitCh c) :
    parseFloatChars (c :: rest) = parseUnsignedChars (c :: rest) := by
  show (if c = '-' then (parseUnsignedChars rest).map (fun q => -q)
    else if c = '+' then parseUnsignedChars rest
    else parseUnsignedChars (c :: rest)) = parseUnsignedChars (c :: rest)
  rw [if_neg (fun h => isDigitCh_ne_minus hc h), if_neg (fun h => isDigitCh_ne_plus hc h)]

theorem parseFloatChars_append_natToChars (x : Nat) (tail : List Char) :
    parseFloatChars (natToChars x ++ tail) = parseUnsignedChars (natToChars x ++ tail) := by
  obtain ⟨c, cs, hEq⟩ := List.exists_cons_of_ne_nil (natToChars_ne_nil x)
  have hc : isDigitCh c := isDigitCh_of_mem_natToChars (hEq ▸ List.mem_cons_self c cs)
  rw [hEq, List.cons_append, parseFloatChars_cons_digit _ hc]

theorem parseUnsignedChars_fmtBody (n e : Nat) :
    parseUnsignedChars
        (if e = 0 then natToChars n
         else natToChars (n / 10 ^ e) ++ '.' :: fracChars (n % 10 ^ e) e) =
      some ((n : ℚ) / (10 : ℚ) ^ e) := by
  rcases Nat.eq_zero_or_pos e with he | he
  · subst he
    rw [if_pos rfl, parseUnsignedChars_natToChars]
    norm_num
  · rw [if_neg (Nat.pos_iff_ne_zero.mp he),
      parseUnsignedChars_point (Nat.mod_lt n (Nat.pos_pow_of_pos e (by norm_num)))]
    congr 1
    have hmod := Nat.div_add_mod n (10 ^ e)
    have hpow : ((10 : ℚ) ^ e) ≠ 0 := by positivity
    field_simp
    have : ((10 ^ e * (n / 10 ^ e) + n % 10 ^ e : Nat) : ℚ) = ((n : Nat) : ℚ) := by
      exact_mod_cast congrArg (fun k : Nat => (k : ℚ)) hmod
    push_cast at this
    linarith

theorem parseFloatChars_fmtBody (n e : Nat) :
    parseFloatChars
        (if e = 0 then natToChars n
         else natToChars (n / 10 ^ e) ++ '.' :: fracChars (n % 10 ^ e) e) =
      parseUnsignedChars
        (if e = 0 then natToChars n
         else natToChars (n / 10 ^ e) ++ '.' :: fracChars (n % 10 ^ e) e) := by
  rcases Nat.eq_zero_or_pos e with he | he
  · subst he
    rw [if_pos rfl, ← List.append_nil (natToChars n), parseFloatChars_append_natToChars]
  · rw [if_neg (Nat.pos_iff_ne_zero.mp he), parseFloatChars_append_natToChars]

theorem parseFloatChars_fmtDecimalChars (m : Int) (e : Nat) :
    parseFloatChars (fmtDecimalChars m e) = some ((m : ℚ) / (10 : ℚ) ^ e) := by
  unfold fmtDecimalChars
  rcases lt_or_le m 0 with hm | hm
  · rw [if_pos hm]
    have habs : ((m.natAbs : ℚ)) = -(m : ℚ) := by
      rw [Int.cast_natAbs, abs_of_neg hm, Int.cast_neg]
    rw [List.singleton_append]
    rw [show parseFloatChars ('-' ::
        (if e = 0 then natToChars m.natAbs
         else natToChars (m.natAbs / 10 ^ e) ++ '.' :: fracChars (m.natAbs % 10 ^ e) e)) =
      (parseUnsignedChars
        (if e = 0 then natToChars m.natAbs
         else natToChars (m.natAbs / 10 ^ e) ++ '.' :: fracChars (m.natAbs % 10 ^ e) e)).map
          (fun q => -q) from rfl]
    rw [parseUnsignedChars_fmtBody]
    simp [habs, neg_div]
  · rw [if_neg (not_lt.mpr hm), List.nil_append]
    have habs : ((m.natAbs : ℚ)) = (m : ℚ) := by
      rw [Int.cast_natAbs, abs_of_nonneg hm]
    rw [parseFloatChars_fmtBody, parseUnsignedChars_fmtBody, habs]

theorem parseFloat_pyFloatStr {q : ℚ} (h : decimalRepresentable q) :
    parseFloat (pyFloatStr q) = some q := by
  show parseFloatChars (fmtDecimalChars (q.num * ((10 : Int) ^ decExp q / (q.den : Int)))
    (decExp q)) = some q
  rw [parseFloatChars_fmtDecimalChars]
  have hd : ((q.den : Int)) ∣ (10 : Int) ^ decExp q := by
    have := Int.natCast_dvd_natCast.mpr h
    push_cast at this
    exact this
  have hden0 : ((q.den : ℚ)) ≠ 0 := Nat.cast_ne_zero.mpr q.den_nz
  have hdenz0 : (((q.den : Int) : ℚ)) ≠ 0 := by push_cast; exact hden0
  have hcast : (((10 : Int) ^ decExp q / (q.den : Int) : Int) : ℚ) =
      (10 : ℚ) ^ decExp q / (q.den : ℚ) := by
    rw [Int.cast_div hd hdenz0]
    push_cast
    ring
  congr 1
  push_cast [hcast]
  have hnum : ((q.num : ℚ)) = q * (q.den : ℚ) := by
    have hq := Rat.num_div_den q
    nth_rewrite 2 [← hq]
    rw [div_mul_cancel₀ _ hden0]
  field_simp
  rw [hnum]
  ring

theorem comma_not_mem_natToChars (n : Nat) : ',' ∉ natToChars n :=
  fun h => isDigitCh_ne_comma (isDigitCh_of_mem_natToChars h) rfl

theorem comma_not_mem_fmtDecimalChars (m : Int) (e : Nat) :
    ',' ∉ fmtDecimalChars m e := by
  intro h
  unfold fmtDecimalChars at h
  rcases List.mem_append.mp h with h1 | h1
  · split at h1
    · simp at h1
    · simp at h1
  · split at h1
    · exact comma_not_mem_natToChars _ h1
    · rcases List.mem_append.mp h1 with h2 | h2
      · exact comma_not_mem_natToChars _ h2
      · rcases List.mem_cons.mp h2 with h3 | h3
        · simp at h3
        · exact isDigitCh_ne_comma (isDigitCh_of_mem_fracChars h3) rfl

theorem comma_not_mem_pyFloatStr (q : ℚ) : ',' ∉ (pyFloatStr q).toList :=
  comma_not_mem_fmtDecimalChars _ _

theorem comma_not_mem_pyNatStr (n : Nat) : ',' ∉ (pyNatStr n).toList :=
  comma_not_mem_natToChars n

/-! ## Accumulation over a replayed trade stream -/

theorem calculate_cvd_of_parse_none {m : Monitor} {t : TradeData}
    (h : parseTrade t = none) : calculate_cvd m t = m := by
  unfold calculate_cvd
  rw [h]

theorem calculate_cvd_of_parse_some {m : Monitor} {t : TradeData} {x : ℚ × Bool × ℚ}
    (h : parseTrade t = some x) :
    (calculate_cvd m t).cvd = m.cvd + signedQty x ∧
      (calculate_cvd m t).period_volume = m.period_volume + x.1 := by
  obtain ⟨quantity, flag, price⟩ := x
  unfold calculate_cvd
  rw [h]
  unfold signedQty
  constructor <;> simp

theorem replay_accumulates (events : List TradeData) : ∀ m : Monitor,
    (replay m events).cvd = m.cvd + ((events.filterMap parseTrade).map signedQty).sum ∧
      (replay m events).period_volume =
        m.period_volume + ((events.filterMap parseTrade).map (fun x => x.1)).sum := by
  induction events with
  | nil => intro m; simp [replay]
  | cons t ts ih =>
    intro m
    have hrep : replay m (t :: ts) = replay (calculate_cvd m t) ts := rfl
    rcases hpt : parseTrade t with _ | x
    · rw [hrep, calculate_cvd_of_parse_none hpt]
      simpa [List.filterMap_cons, hpt] using ih m
    · obtain ⟨h1, h2⟩ := calculate_cvd_of_parse_some (m := m) hpt
      obtain ⟨ih1, ih2⟩ := ih (calculate_cvd m t)
      rw [hrep]
      constructor
      · rw [ih1, h1]
        simp [List.filterMap_cons, hpt]
        ring
      · rw [ih2, h2]
        simp [List.filterMap_cons, hpt]
        ring

/-! ## The claims -/

/-- C1: for every sequence of validly-parsed trade events replayed into a
single aggregator whose cvd is seeded at 0, the final `cvd` equals the
signed sum of quantities (positive when the buyer-is-maker flag is false,
i.e. the aggressor is the buyer, negative otherwise) and `period_volume`
equals the unsigned sum of quantities.  The spec's two-trade scenario is
the witness below. -/
theorem cvd_replay_signed_sum (s : String) (events : List TradeData)
    (_hvalid : ∀ t ∈ events, (parseTrade t).isSome) :
    (replay (mkMonitor 0 s) events).cvd =
        ((events.filterMap parseTrade).map signedQty).sum ∧
      (replay (mkMonitor 0 s) events).period_volume =
        ((events.filterMap parseTrade).map (fun x => x.1)).sum := by
  obtain ⟨h1, h2⟩ := replay_accumulates events (mkMonitor 0 s)
  refine ⟨h1.trans ?_, h2.trans ?_⟩
  · show (0 : ℚ) + _ = _
    rw [zero_add]
  · show (0 : ℚ) + _ = _
    rw [zero_add]

/-- Witness for C1: the two trades (qty=1, aggressor=buy) and (qty=0.5,
aggressor=sell) yield cvd = 0.5 and periodVolume = 1.5. -/
theorem cvd_replay_signed_sum_witness :
    (replay (mkMonitor 0 "btcusdt@aggTrade") scenarioEvents).cvd = 1/2 ∧
      (replay (mkMonitor 0 "btcusdt@aggTrade") scenarioEvents).period_volume = 3/2 := by
  obtain ⟨h1, h2⟩ := cvd_replay_signed_sum "btcusdt@aggTrade" scenarioEvents (by decide)
  constructor
  · rw [h1]
    have h : ((scenarioEvents.filterMap parseTrade).map signedQty).sum =
        signedQty (((1 : Nat) : ℚ), false, (((100 : Nat) : ℚ) + ((0 : Nat) : ℚ) / 10 ^ 1)) +
          (signedQty ((((0 : Nat) : ℚ) + ((5 : Nat) : ℚ) / 10 ^ 1), true,
            (((99 : Nat) : ℚ) + ((5 : Nat) : ℚ) / 10 ^ 1)) + 0) := rfl
    rw [h]
    norm_num [signedQty]
  · rw [h2]
    have h : ((scenarioEvents.filterMap parseTrade).map (fun x => x.1)).sum =
        ((1 : Nat) : ℚ) + ((((0 : Nat) : ℚ) + ((5 : Nat) : ℚ) / 10 ^ 1) + 0) := rfl
    rw [h]
    norm_num

/-- C2: the claim says the store snapshot's `trade_count` equals the
number of validly-parsed events (2 in the two-trade scenario).  The code
disagrees with itself here: line 348 publishes `self.trade_count` into the
store *before* line 350 increments it, while the other three fields are
published after their updates, so after n trades the monitor has counted
n but its store entry (and hence every persisted row) says n - 1.  This
theorem evaluates the code at the failing input: after the two-trade
scenario the monitor's count is 2 but the store entry holds 1. -/
theorem store_trade_count_lags :
    (replay (mkMonitor 0 "btcusdt@aggTrade") scenarioEvents).trade_count = 2 ∧
      (replay (mkMonitor 0 "btcusdt@aggTrade") scenarioEvents).entry.trade_count = 1 := by
  decide

/-- C3: after a persistence cycle, every monitor's `period_volume` — and
the mirrored value in its store entry — is exactly 0, whatever the
per-file write failures were, while `cvd`, `last_price` and `trade_count`
(in the monitor and in the store entry) are untouched by the reset. -/
theorem save_resets_period_volume (ts : String) (writeFails : String → Bool)
    (monitors : List (String × Monitor)) (i : Nat) (h : i < monitors.length) :
    ((save_cvd_data_both_modes ts writeFails monitors).monitors.getD i
        ("", mkMonitor 0 "")).2.period_volume = 0 ∧
      ((save_cvd_data_both_modes ts writeFails monitors).monitors.getD i
        ("", mkMonitor 0 "")).2.entry.period_volume = 0 ∧
      ((save_cvd_data_both_modes ts writeFails monitors).monitors.getD i
        ("", mkMonitor 0 "")).2.cvd = (monitors.getD i ("", mkMonitor 0 "")).2.cvd ∧
      ((save_cvd_data_both_modes ts writeFails monitors).monitors.getD i
        ("", mkMonitor 0 "")).2.last_price = (monitors.getD i ("", mkMonitor 0 "")).2.last_price ∧
      ((save_cvd_data_both_modes ts writeFails monitors).monitors.getD i
        ("", mkMonitor 0 "")).2.trade_count = (monitors.getD i ("", mkMonitor 0 "")).2.trade_count ∧
      ((save_cvd_data_both_modes ts writeFails monitors).monitors.getD i
        ("", mkMonitor 0 "")).2.entry.cvd = (monitors.getD i ("", mkMonitor 0 "")).2.entry.cvd ∧
      ((save_cvd_data_both_modes ts writeFails monitors).monitors.getD i
        ("", mkMonitor 0 "")).2.entry.last_price =
        (monitors.getD i ("", mkMonitor 0 "")).2.entry.last_price ∧
      ((save_cvd_data_both_modes ts writeFails monitors).monitors.getD i
        ("", mkMonitor 0 "")).2.entry.trade_count =
        (monitors.getD i ("", mkMonitor 0 "")).2.entry.trade_count := by
  have hmon : (save_cvd_data_both_modes ts writeFails monitors).monitors =
      monitors.map (fun p => (p.1, reset_period_volume p.2)) := rfl
  have hlen : i < (monitors.map (fun p => (p.1, reset_period_volume p.2))).length := by
    simpa using h
  rw [hmon, List.getD_eq_getElem _ _ hlen, List.getD_eq_getElem _ _ h]
  simp only [List.getElem_map]
  unfold reset_period_volume
  refine ⟨rfl, rfl, rfl, rfl, rfl, rfl, rfl, rfl⟩

/-- Witness for C3: one monitor with nonzero accumulators, every file
write failing; the reset still happens and only touches the period
volume. -/
theorem save_resets_period_volume_witness :
    ((save_cvd_data_both_modes "ts" (fun _ => true)
        [("BTCUSDT_spot", mExample)]).monitors.getD 0
        ("", mkMonitor 0 "")).2.period_volume = 0 ∧
      ((save_cvd_data_both_modes "ts" (fun _ => true)
        [("BTCUSDT_spot", mExample)]).monitors.getD 0
        ("", mkMonitor 0 "")).2.entry.period_volume = 0 ∧
      ((save_cvd_data_both_modes "ts" (fun _ => true)
        [("BTCUSDT_spot", mExample)]).monitors.getD 0
        ("", mkMonitor 0 "")).2.cvd =
        ([("BTCUSDT_spot", mExample)].getD 0 ("", mkMonitor 0 "")).2.cvd ∧
      ((save_cvd_data_both_modes "ts" (fun _ => true)
        [("BTCUSDT_spot", mExample)]).monitors.getD 0
        ("", mkMonitor 0 "")).2.last_price =
        ([("BTCUSDT_spot", mExample)].getD 0 ("", mkMonitor 0 "")).2.last_price ∧
      ((save_cvd_data_both_modes "ts" (fun _ => true)
        [("BTCUSDT_spot", mExample)]).monitors.getD 0
        ("", mkMonitor 0 "")).2.trade_count =
        ([("BTCUSDT_spot", mExample)].getD 0 ("", mkMonitor 0 "")).2.trade_count ∧
      ((save_cvd_data_both_modes "ts" (fun _ => true)
        [("BTCUSDT_spot", mExample)]).monitors.getD 0
        ("", mkMonitor 0 "")).2.entry.cvd =
        ([("BTCUSDT_spot", mExample)].getD 0 ("", mkMonitor 0 "")).2.entry.cvd ∧
      ((save_cvd_data_both_modes "ts" (fun _ => true)
        [("BTCUSDT_spot", mExample)]).monitors.getD 0
        ("", mkMonitor 0 "")).2.entry.last_price =
        ([("BTCUSDT_spot", mExample)].getD 0 ("", mkMonitor 0 "")).2.entry.last_price ∧
      ((save_cvd_data_both_modes "ts" (fun _ => true)
        [("BTCUSDT_spot", mExample)]).monitors.getD 0
        ("", mkMonitor 0 "")).2.entry.trade_count =
        ([("BTCUSDT_spot", mExample)].getD 0 ("", mkMonitor 0 "")).2.entry.trade_count :=
  save_resets_period_volume "ts" (fun _ => true) [("BTCUSDT_spot", mExample)] 0
    (by decide)

/-- C4: for every reconnection attempt with counter value n ≥ 1 (below the
cap), the delay slept before reconnecting is min(5 · 2^n, 60); the attempt
counter is reset to 0 immediately on a successful connection; and once the
counter has reached the maximum of 20, the loop halts and no schedule of
connection outcomes changes the state again (monitoring stops until
process restart). -/
theorem reconnect_backoff_spec :
    (∀ (m : Monitor) (ok : Bool) (frames : List WsFrame),
        m.running = true → 1 ≤ m.reconnect_attempts → m.reconnect_attempts < 20 →
        (connect_iteration m ok frames).waited =
          some (min (5 * 2 ^ m.reconnect_attempts) 60)) ∧
      (∀ m : Monitor, (on_connect_success m).reconnect_attempts = 0) ∧
      (∀ m : Monitor, m.running = true → 20 ≤ m.reconnect_attempts →
        (∀ (ok : Bool) (frames : List WsFrame),
            (connect_iteration m ok frames).halted = true ∧
              (connect_iteration m ok frames).waited = none) ∧
          ∀ inputs, connect_and_monitor m inputs = m) := by
  refine ⟨?_, ?_, ?_⟩
  · intro m ok frames hrun h1 h20
    have hcap : ¬ max_reconnect_attempts ≤ m.reconnect_attempts := by
      unfold max_reconnect_attempts; omega
    unfold connect_iteration
    rw [hrun]
    rw [if_neg (by simp), if_neg hcap]
    have hpos : 0 < m.reconnect_attempts := h1
    cases ok <;>
      simp [if_pos hpos, backoff_delay, initial_reconnect_delay, max_reconnect_delay]
  · intro m; rfl
  · intro m hrun hcap
    have hiter : ∀ (ok : Bool) (frames : List WsFrame),
        connect_iteration m ok frames = ⟨true, none, m⟩ := by
      intro ok frames
      unfold connect_iteration
      rw [hrun]
      rw [if_neg (by simp), if_pos (by unfold max_reconnect_attempts; omega)]
    refine ⟨fun ok frames => by rw [hiter ok frames]; exact ⟨rfl, rfl⟩, ?_⟩
    intro inputs
    cases inputs with
    | nil => rfl
    | cons p rest =>
      obtain ⟨ok, frames⟩ := p
      show (let r := connect_iteration m ok frames;
        if r.halted then r.state else connect_and_monitor r.state rest) = m
      rw [hiter ok frames]
      rfl

/-- Witness for C4: at attempt counter 3 the delay is min(5·2³, 60) = 40;
a fresh successful connection zeroes the counter; at counter 20 the loop
halts, sleeps no backoff, and any further schedule leaves the monitor
untouched. -/
theorem reconnect_backoff_spec_witness :
    (connect_iteration { mExample with reconnect_attempts := 3 } true []).waited =
        some (min (5 * 2 ^ ({ mExample with reconnect_attempts := 3 } : Monitor).reconnect_attempts) 60) ∧
      (on_connect_success { mExample with reconnect_attempts := 7 }).reconnect_attempts = 0 ∧
      ((connect_iteration { mExample with reconnect_attempts := 20 } true []).halted = true ∧
        (connect_iteration { mExample with reconnect_attempts := 20 } true []).waited = none) ∧
      connect_and_monitor { mExample with reconnect_attempts := 20 }
          [(true, []), (false, [])] =
        { mExample with reconnect_attempts := 20 } := by
  obtain ⟨w1, w2, w3⟩ := reconnect_backoff_spec
  obtain ⟨w3a, w3b⟩ := w3 { mExample with reconnect_attempts := 20 } (by decide) (by decide)
  exact ⟨w1 { mExample with reconnect_attempts := 3 } true [] (by decide) (by decide)
      (by decide),
    w2 { mExample with reconnect_attempts := 7 }, w3a true [],
    w3b [(true, []), (false, [])]⟩

/-- Counterexample to C5 as stated: this fresh, non-empty file has at most
one row — one of the claim's cold-start conditions — yet the loader
returns 2.5, not 0.0, because the row-count check of line 214 only runs
for files smaller than 100 bytes. -/
theorem load_single_row_counterexample :
    longRow.length ≤ 1 ∧
      load_last_cvd_from_separate_csv (some longRow) 0 6 = 5/2 ∧
      (5/2 : ℚ) ≠ 0 := by
  refine ⟨by decide, ?_, by norm_num⟩
  have h : load_last_cvd_from_separate_csv (some longRow) 0 6 =
      ((2 : Nat) : ℚ) + ((5 : Nat) : ℚ) / 10 ^ 1 := rfl
  rw [h]
  norm_num

/-- Unfolding lemma: the loader on a present file. -/
theorem load_some_eq (lines : List String) (ageDays maxAgeDays : Nat) :
    load_last_cvd_from_separate_csv (some lines) ageDays maxAgeDays =
      (if maxAgeDays < ageDays then 0
       else if fileSize lines = 0 then 0
       else if fileSize lines < 100 ∧ lines.length ≤ 1 then 0
       else if lastLineChars lines = [] then 0
       else if 3 ≤ (splitOnCh ',' (lastLineChars lines)).length then
         match parseFloatChars ((splitOnCh ',' (lastLineChars lines)).getD 2 []) with
         | some v => v
         | none => 0
       else 0) := rfl

/-- Unfolding lemma: the amended specification on a present file. -/
theorem loadSeedCvd_spec_some_eq (lines : List String) (ageDays maxAgeDays : Nat) :
    loadSeedCvd_spec (some lines) ageDays maxAgeDays =
      (if maxAgeDays < ageDays ∨ fileSize lines = 0 ∨
          (fileSize lines < 100 ∧ lines.length ≤ 1) then 0
       else (lastRowParse lines).getD 0) := rfl

/-- C5 (amended): the loader agrees everywhere with the amended cold-start
specification: 0.0 exactly when the file is absent, too old, empty, or
smaller than 100 bytes with at most one row, or when its final row fails
to parse; otherwise the parsed third column of the final row.  (The
amendment: the header-only condition "at most 1 row" only applies to
files under 100 bytes.) -/
theorem loadSeedCvd_characterization (file : Option (List String))
    (ageDays maxAgeDays : Nat) :
    load_last_cvd_from_separate_csv file ageDays maxAgeDays =
      loadSeedCvd_spec file ageDays maxAgeDays := by
  cases file with
  | none => rfl
  | some lines =>
    rw [load_some_eq, loadSeedCvd_spec_some_eq]
    by_cases h1 : maxAgeDays < ageDays
    · rw [if_pos h1, if_pos (Or.inl h1)]
    by_cases h2 : fileSize lines = 0
    · rw [if_neg h1, if_pos h2, if_pos (Or.inr (Or.inl h2))]
    by_cases h3 : fileSize lines < 100 ∧ lines.length ≤ 1
    · rw [if_neg h1, if_neg h2, if_pos h3, if_pos (Or.inr (Or.inr h3))]
    · rw [if_neg h1, if_neg h2, if_neg h3, if_neg (by tauto :
        ¬ (maxAgeDays < ageDays ∨ fileSize lines = 0 ∨
          (fileSize lines < 100 ∧ lines.length ≤ 1)))]
      unfold lastRowParse
      by_cases h4 : lastLineChars lines = []
      · rw [if_pos h4, if_pos h4]
        rfl
      · rw [if_neg h4, if_neg h4]
        by_cases h5 : 3 ≤ (splitOnCh ',' (lastLineChars lines)).length
        · rw [if_pos h5, if_pos h5]
          cases parseFloatChars ((splitOnCh ',' (lastLineChars lines)).getD 2 []) with
          | none => rfl
          | some v => rfl
        · rw [if_neg h5, if_neg h5]
          rfl

theorem fileSize_ne_zero {l : List String} (h : l ≠ []) : fileSize l ≠ 0 := by
  cases l with
  | nil => exact absurd rfl h
  | cons a as =>
    unfold fileSize
    simp only [List.map_cons, List.sum_cons]
    omega

/-- Loading a file whose final line is a freshly appended comma-joined row
returns the parse of that row's third cell. -/
theorem load_of_appended_row (L : List String) (maxAgeDays : Nat) (cells : List String)
    (hlast : L.getLast? = some (writeRowLine cells))
    (hlen : 2 ≤ L.length)
    (hcellslen : 3 ≤ cells.length)
    (hnc : ∀ cell ∈ cells, ',' ∉ cell.toList) :
    load_last_cvd_from_separate_csv (some L) 0 maxAgeDays =
      (parseFloatChars ((cells.map String.toList).getD 2 [])).getD 0 := by
  have hLne : L ≠ [] := by
    intro hc
    rw [hc] at hlen
    simp at hlen
  have hlastchars : lastLineChars L = joinCh ',' (cells.map String.toList) := by
    unfold lastLineChars
    rw [hlast]
    rfl
  obtain ⟨c1, t1, rfl⟩ : ∃ c1 t1, cells = c1 :: t1 := by
    cases cells with
    | nil => simp at hcellslen
    | cons a as => exact ⟨a, as, rfl⟩
  obtain ⟨c2, t2, rfl⟩ : ∃ c2 t2, t1 = c2 :: t2 := by
    cases t1 with
    | nil => simp at hcellslen
    | cons a as => exact ⟨a, as, rfl⟩
  have hsplit : splitOnCh ',' (lastLineChars L) =
      ((c1 :: c2 :: t2).map String.toList) := by
    rw [hlastchars]
    exact splitOnCh_joinCh (by simp) (by
      intro l hl
      obtain ⟨cell, hc, rfl⟩ := List.mem_map.mp hl
      exact hnc cell hc)
  rw [load_some_eq]
  rw [if_neg (by omega : ¬ maxAgeDays < 0), if_neg (fileSize_ne_zero hLne),
    if_neg (by
      rintro ⟨-, hle⟩
      omega),
    if_neg (by
      rw [hlastchars]
      exact joinCh_two_ne_nil),
    if_pos (by
      rw [hsplit]
      simpa using hcellslen)]
  rw [hsplit]
  cases parseFloatChars (((c1 :: c2 :: t2).map String.toList).getD 2 []) with
  | none => rfl
  | some v => rfl

/-- C6: round trip of one persistence cycle through one instrument's
dedicated log: whenever a row is written for an instrument (it is not
skipped), immediately re-loading the file with any max-age (the file is
fresh, age 0) returns exactly the cvd that was persisted.  Hypotheses:
the timestamp cell contains no comma (the `%Y-%m-%d %H:%M:%S` format
never does), the pre-existing log — if any — is a non-empty file (every
file this program creates starts with its header row), and the cvd is
decimally representable (true of every float). -/
theorem save_load_roundtrip (prior : Option (List String)) (ts : String) (e : Entry)
    (maxAgeDays : Nat) (hts : ',' ∉ ts.toList) (hprior : prior ≠ some [])
    (hskip : ¬ save_skip e) (hdec : decimalRepresentable e.cvd) :
    load_last_cvd_from_separate_csv (save_separate_file prior ts e) 0 maxAgeDays =
      e.cvd := by
  unfold save_separate_file
  rw [if_neg hskip]
  have hlast : (append_row_to_file prior separate_header
      (separate_row_cells ts e)).getLast? =
      some (writeRowLine (separate_row_cells ts e)) := by
    unfold append_row_to_file
    cases prior with
    | none => rfl
    | some ls => exact List.getLast?_concat _
  have hlen : 2 ≤ (append_row_to_file prior separate_header
      (separate_row_cells ts e)).length := by
    unfold append_row_to_file
    cases prior with
    | none => simp
    | some ls =>
      cases ls with
      | nil => exact absurd rfl hprior
      | cons a as => simp
  rw [load_of_appended_row _ maxAgeDays (separate_row_cells ts e) hlast hlen
    (by simp [separate_row_cells])
    (by
      intro cell hc
      simp only [separate_row_cells, List.mem_cons, List.not_mem_nil, or_false] at hc
      rcases hc with rfl | rfl | rfl | rfl | rfl
      · exact hts
      · exact comma_not_mem_pyFloatStr _
      · exact comma_not_mem_pyFloatStr _
      · exact comma_not_mem_pyFloatStr _
      · exact comma_not_mem_pyNatStr _)]
  have hcell : (((separate_row_cells ts e).map String.toList).getD 2 []) =
      (pyFloatStr e.cvd).toList := rfl
  rw [hcell,
    show parseFloatChars ((pyFloatStr e.cvd).toList) = parseFloat (pyFloatStr e.cvd)
      from rfl,
    parseFloat_pyFloatStr hdec]
  rfl

/-- Witness for C6: persisting the example snapshot into a fresh file and
loading it back returns the persisted cvd of one half. -/
theorem save_load_roundtrip_witness :
    load_last_cvd_from_separate_csv
        (save_separate_file none "2024-01-01 00:00:00" eExample) 0 6 = halfQ :=
  save_load_roundtrip none "2024-01-01 00:00:00" eExample 6 (by decide) (by decide)
    (by decide) (by decide)

/-- C7: a malformed trade event (missing field or non-numeric value) is
dropped: `calculate_cvd` leaves the whole monitor — accumulators and
store entry alike — unchanged, and delivery of such an event inside
either websocket envelope neither changes state nor breaks the read loop
(the connection continues). -/
theorem malformed_trade_dropped (m : Monitor) (t : TradeData)
    (h : parseTrade t = none) :
    calculate_cvd m t = m ∧
      handle_frame m (WsFrame.text (WsMessage.rawTrade "aggTrade" t)) = (m, true) ∧
      handle_frame m (WsFrame.binary
        (WsMessage.framed m.stream_name "aggTrade" t)) = (m, true) := by
  have hc : calculate_cvd m t = m := calculate_cvd_of_parse_none h
  refine ⟨hc, ?_, ?_⟩
  · show (process_message m (WsMessage.rawTrade "aggTrade" t), true) = (m, true)
    rw [show process_message m (WsMessage.rawTrade "aggTrade" t) =
      calculate_cvd m t from by simp [process_message], hc]
  · show (process_message m (WsMessage.framed m.stream_name "aggTrade" t), true) =
      (m, true)
    rw [show process_message m (WsMessage.framed m.stream_name "aggTrade" t) =
      calculate_cvd m t from by simp [process_message], hc]

/-- Witness for C7: a trade with non-numeric quantity leaves the example
monitor untouched and keeps the connection alive. -/
theorem malformed_trade_dropped_witness :
    calculate_cvd mExample badTrade = mExample ∧
      handle_frame mExample
        (WsFrame.text (WsMessage.rawTrade "aggTrade" badTrade)) = (mExample, true) ∧
      handle_frame mExample (WsFrame.binary
        (WsMessage.framed mExample.stream_name "aggTrade" badTrade)) =
        (mExample, true) :=
  malformed_trade_dropped mExample badTrade (by decide)

/-- Counterexample to C8 as stated: stop only clears the running flag
(line 441); it does not close the active transport — after `stop` the
websocket held by the monitor is still open.  (Teardown of the socket in
the program comes from the surrounding task being cancelled, not from
`stop`.) -/
theorem stop_leaves_transport_open :
    mOpenWs.ws_open = true ∧ (stop mOpenWs).running = false ∧
      (stop mOpenWs).ws_open = true :=
  ⟨rfl, rfl, rfl⟩

/-- C8 (amended): `stop()` moves the client to the stopped state — the
running flag is cleared, so the monitoring loop exits at its next check
and no schedule of connection outcomes changes the state again — but it
does not itself close the active transport (`ws_open` is untouched);
closing happens only when the surrounding task is torn down. -/
theorem stop_sets_stopped (m : Monitor) :
    (stop m).running = false ∧ (stop m).ws_open = m.ws_open ∧
      ∀ inputs, connect_and_monitor (stop m) inputs = stop m := by
  refine ⟨rfl, rfl, ?_⟩
  intro inputs
  cases inputs with
  | nil => rfl
  | cons p rest =>
    obtain ⟨ok, frames⟩ := p
    have hiter : connect_iteration (stop m) ok frames = ⟨true, none, stop m⟩ := by
      unfold connect_iteration
      rw [show (stop m).running = false from rfl]
      rw [if_pos rfl]
    show (let r := connect_iteration (stop m) ok frames;
      if r.halted then r.state else connect_and_monitor r.state rest) = stop m
    rw [hiter]
    rfl

/-- C9: the MetricsStore entry mirrors the monitor's own `cvd`,
`period_volume` and `last_price`: the mirror holds right after
construction, after every validly-parsed trade, and is preserved by every
period-volume reset. -/
theorem store_mirrors_monitor :
    (∀ (seed : ℚ) (s : String), mirrors (mkMonitor seed s)) ∧
      (∀ (m : Monitor) (t : TradeData), (parseTrade t).isSome = true →
        mirrors (calculate_cvd m t)) ∧
      ∀ m : Monitor, mirrors m → mirrors (reset_period_volume m) := by
  refine ⟨?_, ?_, ?_⟩
  · intro seed s
    exact ⟨rfl, rfl, rfl⟩
  · intro m t h
    rcases hpt : parseTrade t with _ | x
    · rw [hpt] at h
      simp at h
    · obtain ⟨quantity, flag, price⟩ := x
      unfold calculate_cvd
      rw [hpt]
      exact ⟨rfl, rfl, rfl⟩
  · intro m hm
    exact ⟨hm.1, rfl, hm.2.2⟩

/-- Witness for C9: the mirror property evaluated at a fresh monitor, at a
valid trade into the example monitor, and at a reset of the example
monitor. -/
theorem store_mirrors_monitor_witness :
    mirrors (mkMonitor 0 "btcusdt@aggTrade") ∧
      mirrors (calculate_cvd (mkMonitor 0 "btcusdt@aggTrade") goodTrade) ∧
      mirrors (reset_period_volume (mkMonitor halfQ "btcusdt@aggTrade")) := by
  obtain ⟨w1, w2, w3⟩ := store_mirrors_monitor
  exact ⟨w1 0 "btcusdt@aggTrade",
    w2 (mkMonitor 0 "btcusdt@aggTrade") goodTrade (by decide),
    w3 (mkMonitor halfQ "btcusdt@aggTrade") ⟨rfl, rfl, rfl⟩⟩

/-- Unfolding lemma: one step of the collection pass. -/
theorem save_rows_cons (ts key : String) (mon : Monitor)
    (rest : List (String × Monitor)) :
    save_rows ts ((key, mon) :: rest) =
      if save_skip mon.entry then save_rows ts rest
      else (unified_row_cells ts key mon.entry :: (save_rows ts rest).1,
        (key, separate_row_cells ts mon.entry) :: (save_rows ts rest).2) := rfl

/-- C10: within one persistence cycle, the combined-log rows and the
per-instrument rows are built from the same single read of each
snapshot: the combined row list is exactly the per-instrument row list
with the instrument key inserted as second column — timestamp, price,
cvd, period volume and trade count cells are identical. -/
theorem unified_separate_rows_agree (ts : String) (monitors : List (String × Monitor)) :
    (save_rows ts monitors).1 =
      (save_rows ts monitors).2.map (fun p =>
        match p.2 with
        | [] => [p.1]
        | t :: rest => t :: p.1 :: rest) := by
  induction monitors with
  | nil => rfl
  | cons km rest ih =>
    obtain ⟨key, mon⟩ := km
    rw [save_rows_cons]
    by_cases hs : save_skip mon.entry
    · rw [if_pos hs]
      exact ih
    · rw [if_neg hs]
      simp only [List.map_cons]
      rw [← ih]
      rfl

end CvdV3
